import Mathlib

/-!
Shallow embedding of the quote/draft-order logic of `src/app.py`
(`create_draft_order`, lines 263-323, and `create_draft_from_method`,
lines 331-506), together with theorems checking the specification's
claims about it.

Money is modelled as `ℚ`.  Python's `round(x, 2)` and the `f"{x:.2f}"`
serialization both round to the nearest cent with ties to even; both are
modelled by `round2`.  Python's `str.startswith` is modelled by
`str_starts_with` (character-list prefix).  The catalog lookup
(`fetch_variant_info`) is an oracle parameter `catalog`; a `none` result
is a catalog miss.
-/

/-- Round a rational to the nearest integer, ties to even
(the rounding convention of Python's `round`). -/
def roundHalfEven (x : ℚ) : ℤ :=
  if x - ⌊x⌋ < 1/2 then ⌊x⌋
  else if 1/2 < x - ⌊x⌋ then ⌊x⌋ + 1
  else if ⌊x⌋ % 2 = 0 then ⌊x⌋ else ⌊x⌋ + 1

/-- `round(x, 2)` and `f"{x:.2f}"`: round to the nearest cent, ties to even. -/
def round2 (x : ℚ) : ℚ := (roundHalfEven (x * 100) : ℚ) / 100

/-- `create_draft_order` (src/app.py lines 275-278): the per-item discount
amount.  `amt = round(price * pct / 100, 2)`; when `price - amt < 0` the
code replaces `amt` by `price - 0.01`. -/
def legacy_discount_amount (price pct : ℚ) : ℚ :=
  let amt := round2 (price * pct / 100)
  if price - amt < 0 then price - 1/100 else amt

/-- The final unit price implied by a `create_draft_order` line item:
the item's price minus the applied discount amount. -/
def legacy_final_price (price pct : ℚ) : ℚ :=
  price - legacy_discount_amount price pct

/-- Modelled from the spec (§4 money rounding policy):
`finalPrice = max(price - discountAmount, 0.01)` with
`discountAmount = round(price * pct / 100, 2)`.  Stated only for
comparison with `legacy_final_price`. -/
def legacy_spec_final_price (price pct : ℚ) : ℚ :=
  max (price - round2 (price * pct / 100)) (1/100)

/-- One parsed row of `product_list` (src/app.py lines 358-362):
`sku` as given (stripping happens in `process_row`, as in the code),
`qty = int(it.get("qty", 1))`, `disc = float(it.get("disc", "0"))`. -/
structure Row where
  sku : String
  qty : ℤ
  disc : ℚ
  deriving DecidableEq, Repr

/-- Result of `fetch_variant_info` (src/app.py lines 80-117): the variant's
numeric id and its catalog (base) price. -/
structure VariantInfo where
  id : ℤ
  price : ℚ
  deriving DecidableEq, Repr

/-- One emitted line item.  `catalogItem` models the variant dict built at
src/app.py lines 446-460 (`price` is the serialized base price and
`appliedDiscount` the optional `applied_discount` amount); `customItem`
models the custom dicts (lines 390-398, 409-417, 428-437), where
`taxable = true` means the `"taxable"` key is absent (Shopify default) and
`requiresShipping = true` means the `"requires_shipping"` key is present. -/
inductive LineItem where
  | catalogItem (variantId : ℤ) (quantity : ℤ) (price : ℚ) (appliedDiscount : Option ℚ)
  | customItem (title : String) (price : ℚ) (quantity : ℤ) (taxable : Bool) (requiresShipping : Bool)
  deriving DecidableEq, Repr

/-- The quantity carried by an emitted line item. -/
def LineItem.quantity : LineItem → ℤ
  | .catalogItem _ q _ _ => q
  | .customItem _ _ q _ _ => q

/-- The shipping line built at src/app.py lines 372-376. -/
structure ShippingLine where
  title : String
  price : ℚ
  deriving DecidableEq, Repr

/-- The per-request accumulator of `create_draft_from_method`
(src/app.py lines 349-354). -/
structure Ctx where
  lineItems : List LineItem := []
  shippingLine : Option ShippingLine := none
  orderDiscountTotal : ℚ := 0
  taxExempt : Bool := false
  anyStSeen : Bool := false
  anyVariantMatched : Bool := false
  deriving DecidableEq, Repr

/-- The freshly initialized accumulator (src/app.py lines 349-354). -/
def initCtx : Ctx := {}

/-- The ignored state-code set (src/app.py line 356). -/
def ignored_st : List String := ["STCA", "STIN", "STNY", "STPA", "STTX", "STWA"]

/-- Python's `str.upper()`, as a character-list map. -/
def py_upper (s : String) : String := ⟨s.data.map Char.toUpper⟩

/-- Python's `str.strip()`: drop leading and trailing whitespace. -/
def py_strip (s : String) : String :=
  ⟨((s.data.dropWhile Char.isWhitespace).reverse.dropWhile Char.isWhitespace).reverse⟩

/-- Python's `str.startswith`, as character-list prefix. -/
def str_starts_with (s p : String) : Bool := p.data.isPrefixOf s.data

/-- Python truthiness of the optional quote number
(`quote_number` in the condition at src/app.py line 371). -/
def opt_truthy : Option String → Bool
  | none => false
  | some s => decide (s ≠ "")

/-- The shipping-line title `f"QUOTE # {quote_number}"` (src/app.py line 373). -/
def quote_title : Option String → String
  | none => "QUOTE # "
  | some q => "QUOTE # " ++ q

/-- Rule 1 guard (src/app.py line 367): the row is a subtotal marker. -/
abbrev is_subtotal_row (r : Row) : Prop :=
  py_upper (py_strip r.sku) = "SUBTOTAL" ∨ py_upper (py_strip r.sku) = "SUB-TOTAL"

/-- Rule 2 guard (src/app.py line 371): S&H-prefixed SKU with a truthy
quote number. -/
abbrev is_shipping_row (qn : Option String) (r : Row) : Prop :=
  str_starts_with (py_upper (py_strip r.sku)) "S&H" = true ∧ opt_truthy qn = true

/-- Rules 1-5 all fail: the row reaches catalog resolution
(src/app.py line 405). -/
abbrev reaches_catalog (qn : Option String) (r : Row) : Prop :=
  ¬ is_subtotal_row r ∧ ¬ is_shipping_row qn r ∧ ¬ r.disc < 0 ∧
  str_starts_with (py_upper (py_strip r.sku)) "ST" = false ∧
  ¬ (py_strip r.sku = "" ∧ r.disc = 0)

/-- Rule 3 guard: the rows that feed the order-level discount
(src/app.py line 380, reached only when rules 1 and 2 fail). -/
abbrev is_order_discount_row (qn : Option String) (r : Row) : Prop :=
  ¬ is_subtotal_row r ∧ ¬ is_shipping_row qn r ∧ r.disc < 0

/-- Rule 8 guard: the row reaches catalog resolution and produces a normal
catalog match (src/app.py lines 439-460). -/
def is_normal_catalog_match (catalog : String → Option VariantInfo)
    (qn : Option String) (r : Row) : Prop :=
  reaches_catalog qn r ∧
  ∃ info, catalog (py_strip r.sku) = some info ∧ ¬ (info.price ≤ 0 ∨ info.price < r.disc)

/-- The custom line item built at src/app.py lines 409-417 and 428-437:
title `sku or "Custom Item"`, serialized price, and `requires_shipping`
present exactly when no variant has matched yet. -/
def mk_custom_item (sku : String) (disc : ℚ) (qty : ℤ) (anyVariantMatched : Bool) : LineItem :=
  .customItem (if sku = "" then "Custom Item" else sku) (round2 disc) qty true (!anyVariantMatched)

/-- `discount_amount = round(base_price - method_price, 2)`, floored at 0
when negative (src/app.py lines 442-444). -/
def discount_amount (base disc : ℚ) : ℚ :=
  if round2 (base - disc) < 0 then 0 else round2 (base - disc)

/-- Catalog resolution of one row (src/app.py lines 405-460): a miss or a
base price that would force an invalid discount yields a custom item at the
requested price; otherwise a catalog item at the base price with the
optional discount block. -/
def resolve_catalog (catalog : String → Option VariantInfo) (ctx : Ctx)
    (sku : String) (qty : ℤ) (disc : ℚ) : Ctx :=
  match catalog sku with
  | none =>
      { ctx with lineItems := ctx.lineItems ++ [mk_custom_item sku disc qty ctx.anyVariantMatched] }
  | some info =>
      if info.price ≤ 0 ∨ info.price < disc then
        { ctx with lineItems := ctx.lineItems ++ [mk_custom_item sku disc qty ctx.anyVariantMatched] }
      else
        { ctx with
          anyVariantMatched := true
          lineItems := ctx.lineItems ++
            [.catalogItem info.id qty (round2 info.price)
              (if 0 < discount_amount info.price disc
               then some (discount_amount info.price disc) else none)] }

/-- Classification of one row of `product_list`
(src/app.py lines 358-460), first matching rule wins. -/
def process_row (catalog : String → Option VariantInfo) (quoteNumber : Option String)
    (ctx : Ctx) (it : Row) : Ctx :=
  if is_subtotal_row it then ctx
  else if is_shipping_row quoteNumber it then
    { ctx with shippingLine := some ⟨quote_title quoteNumber, round2 it.disc⟩ }
  else if it.disc < 0 then
    { ctx with orderDiscountTotal := ctx.orderDiscountTotal + |it.disc| }
  else if str_starts_with (py_upper (py_strip it.sku)) "ST" then
    if py_upper (py_strip it.sku) ∈ ignored_st then { ctx with anyStSeen := true }
    else
      { ctx with
        anyStSeen := true
        taxExempt := true
        lineItems := ctx.lineItems ++
          [.customItem "SALES TAX" (round2 it.disc) it.qty false false] }
  else if py_strip it.sku = "" ∧ it.disc = 0 then ctx
  else resolve_catalog catalog ctx (py_strip it.sku) it.qty it.disc

/-- The whole row loop of `create_draft_from_method`
(src/app.py lines 358-460). -/
def process_rows (catalog : String → Option VariantInfo) (quoteNumber : Option String)
    (rows : List Row) : Ctx :=
  rows.foldl (process_row catalog quoteNumber) initCtx

/-- The tax-info fallback (src/app.py lines 464-468). -/
def apply_tax_fallback (quoteTax : Option ℚ) (ctx : Ctx) : Ctx :=
  if ctx.anyStSeen then ctx
  else
    match quoteTax with
    | none => ctx
    | some t => if t = 0 then { ctx with taxExempt := true } else ctx

/-- The draft-order body built at src/app.py lines 473-487:
`applied_discount` present exactly when the accumulated order discount is
positive (serialized to cents), `tax_exempt` present exactly when true. -/
structure DraftBody where
  lineItems : List LineItem
  shippingLine : Option ShippingLine
  appliedDiscount : Option ℚ
  taxExempt : Bool
  deriving DecidableEq, Repr

/-- `create_draft_from_method` (src/app.py lines 331-489) up to the
draft-order submission: empty input fails with "No items received"
(line 338); an empty result fails with "No valid variants found"
(lines 470-471); otherwise the draft body is produced. -/
def create_draft_from_method (catalog : String → Option VariantInfo)
    (quoteNumber : Option String) (quoteTax : Option ℚ) (rows : List Row) :
    Except String DraftBody :=
  if rows = [] then .error "No items received"
  else
    let ctx := apply_tax_fallback quoteTax (process_rows catalog quoteNumber rows)
    if ctx.lineItems = [] ∧ ctx.shippingLine = none then .error "No valid variants found"
    else .ok
      { lineItems := ctx.lineItems
        shippingLine := ctx.shippingLine
        appliedDiscount :=
          if 0 < ctx.orderDiscountTotal then some (round2 ctx.orderDiscountTotal) else none
        taxExempt := ctx.taxExempt }

/-! ### Basic facts about the rounding function -/

theorem roundHalfEven_eq_floor_or_succ (x : ℚ) :
    roundHalfEven x = ⌊x⌋ ∨ roundHalfEven x = ⌊x⌋ + 1 := by
  unfold roundHalfEven
  split_ifs <;> simp

theorem floor_le_roundHalfEven (x : ℚ) : ⌊x⌋ ≤ roundHalfEven x := by
  rcases roundHalfEven_eq_floor_or_succ x with h | h <;> omega

theorem roundHalfEven_le_floor_succ (x : ℚ) : roundHalfEven x ≤ ⌊x⌋ + 1 := by
  rcases roundHalfEven_eq_floor_or_succ x with h | h <;> omega

theorem roundHalfEven_nonneg {x : ℚ} (hx : 0 ≤ x) : 0 ≤ roundHalfEven x := by
  have h1 : (0 : ℤ) ≤ ⌊x⌋ := Int.floor_nonneg.mpr hx
  have h2 := floor_le_roundHalfEven x
  omega

theorem roundHalfEven_mono {x y : ℚ} (h : x ≤ y) :
    roundHalfEven x ≤ roundHalfEven y := by
  rcases lt_or_le ⌊x⌋ ⌊y⌋ with hf | hf
  · have h1 := roundHalfEven_le_floor_succ x
    have h2 := floor_le_roundHalfEven y
    omega
  · have hf2 : ⌊x⌋ ≤ ⌊y⌋ := Int.floor_le_floor h
    have heq : ⌊x⌋ = ⌊y⌋ := le_antisymm hf2 hf
    unfold roundHalfEven
    rw [heq]
    split_ifs <;> first | omega | (exfalso; linarith)

theorem round2_nonneg {x : ℚ} (hx : 0 ≤ x) : 0 ≤ round2 x := by
  unfold round2
  have h := roundHalfEven_nonneg (x := x * 100) (by linarith)
  have h2 : (0 : ℚ) ≤ (roundHalfEven (x * 100) : ℚ) := by exact_mod_cast h
  linarith

theorem round2_mono {x y : ℚ} (h : x ≤ y) : round2 x ≤ round2 y := by
  unfold round2
  have h1 : roundHalfEven (x * 100) ≤ roundHalfEven (y * 100) :=
    roundHalfEven_mono (by linarith)
  have h2 : ((roundHalfEven (x * 100) : ℤ) : ℚ) ≤ ((roundHalfEven (y * 100) : ℤ) : ℚ) := by
    exact_mod_cast h1
  linarith

/-! ### ST-prefixed SKUs are not subtotal or shipping markers -/

theorem st_ne_subtotal {s : String} (h : str_starts_with s "ST" = true) :
    s ≠ "SUBTOTAL" ∧ s ≠ "SUB-TOTAL" := by
  constructor <;> (rintro rfl; revert h; decide)

theorem st_not_sh {s : String} (h : str_starts_with s "ST" = true) :
    str_starts_with s "S&H" = false := by
  unfold str_starts_with at h ⊢
  by_contra hc
  rw [Bool.not_eq_false, List.isPrefixOf_iff_prefix] at hc
  rw [List.isPrefixOf_iff_prefix] at h
  obtain ⟨t, ht⟩ := h
  obtain ⟨u, hu⟩ := hc
  have e1 : ("ST".data : List Char) = ['S', 'T'] := rfl
  have e2 : ("S&H".data : List Char) = ['S', '&', 'H'] := rfl
  rw [e1] at ht
  rw [e2, ← ht] at hu
  simp only [List.cons_append, List.cons.injEq] at hu
  exact absurd hu.2.1 (by decide)

theorem st_not_subtotal_row {r : Row}
    (h : str_starts_with (py_upper (py_strip r.sku)) "ST" = true) :
    ¬ is_subtotal_row r := by
  rintro (he | he) <;> [exact (st_ne_subtotal h).1 he; exact (st_ne_subtotal h).2 he]

theorem st_not_shipping_row {qn : Option String} {r : Row}
    (h : str_starts_with (py_upper (py_strip r.sku)) "ST" = true) :
    ¬ is_shipping_row qn r := by
  rintro ⟨hsw, _⟩
  rw [st_not_sh h] at hsw
  exact absurd hsw (by simp)

/-! ### Branch characterizations of `process_row` and `resolve_catalog` -/

theorem process_row_subtotal (k : String → Option VariantInfo) (qn : Option String)
    (c : Ctx) {r : Row} (h : is_subtotal_row r) : process_row k qn c r = c := by
  unfold process_row
  rw [if_pos h]

theorem process_row_shipping (k : String → Option VariantInfo) (qn : Option String)
    (c : Ctx) {r : Row} (h1 : ¬ is_subtotal_row r) (h2 : is_shipping_row qn r) :
    process_row k qn c r = { c with shippingLine := some ⟨quote_title qn, round2 r.disc⟩ } := by
  unfold process_row
  rw [if_neg h1, if_pos h2]

theorem process_row_neg (k : String → Option VariantInfo) (qn : Option String)
    (c : Ctx) {r : Row} (h : is_order_discount_row qn r) :
    process_row k qn c r =
      { c with orderDiscountTotal := c.orderDiscountTotal + |r.disc| } := by
  obtain ⟨h1, h2, h3⟩ := h
  unfold process_row
  rw [if_neg h1, if_neg h2, if_pos h3]

theorem process_row_st_ignored (k : String → Option VariantInfo) (qn : Option String)
    (c : Ctx) {r : Row} (h3 : ¬ r.disc < 0)
    (h4 : str_starts_with (py_upper (py_strip r.sku)) "ST" = true)
    (h5 : py_upper (py_strip r.sku) ∈ ignored_st) :
    process_row k qn c r = { c with anyStSeen := true } := by
  unfold process_row
  rw [if_neg (st_not_subtotal_row h4), if_neg (st_not_shipping_row h4), if_neg h3,
    if_pos h4, if_pos h5]

theorem process_row_st_tax (k : String → Option VariantInfo) (qn : Option String)
    (c : Ctx) {r : Row} (h3 : ¬ r.disc < 0)
    (h4 : str_starts_with (py_upper (py_strip r.sku)) "ST" = true)
    (h5 : py_upper (py_strip r.sku) ∉ ignored_st) :
    process_row k qn c r =
      { c with
        anyStSeen := true
        taxExempt := true
        lineItems := c.lineItems ++
          [.customItem "SALES TAX" (round2 r.disc) r.qty false false] } := by
  unfold process_row
  rw [if_neg (st_not_subtotal_row h4), if_neg (st_not_shipping_row h4), if_neg h3,
    if_pos h4, if_neg h5]

theorem process_row_reaches (k : String → Option VariantInfo) (qn : Option String)
    (c : Ctx) {r : Row} (h : reaches_catalog qn r) :
    process_row k qn c r = resolve_catalog k c (py_strip r.sku) r.qty r.disc := by
  obtain ⟨h1, h2, h3, h4, h5⟩ := h
  unfold process_row
  rw [if_neg h1, if_neg h2, if_neg h3, if_neg (by simp [h4]), if_neg h5]

theorem resolve_catalog_none {k : String → Option VariantInfo} (c : Ctx)
    {sku : String} (qty : ℤ) (disc : ℚ) (h : k sku = none) :
    resolve_catalog k c sku qty disc =
      { c with lineItems := c.lineItems ++ [mk_custom_item sku disc qty c.anyVariantMatched] } := by
  unfold resolve_catalog
  rw [h]

theorem resolve_catalog_custom {k : String → Option VariantInfo} (c : Ctx)
    {sku : String} (qty : ℤ) {disc : ℚ} {info : VariantInfo} (h : k sku = some info)
    (hp : info.price ≤ 0 ∨ info.price < disc) :
    resolve_catalog k c sku qty disc =
      { c with lineItems := c.lineItems ++ [mk_custom_item sku disc qty c.anyVariantMatched] } := by
  unfold resolve_catalog
  rw [h]
  simp only [if_pos hp]

theorem resolve_catalog_match {k : String → Option VariantInfo} (c : Ctx)
    {sku : String} (qty : ℤ) {disc : ℚ} {info : VariantInfo} (h : k sku = some info)
    (hp : ¬ (info.price ≤ 0 ∨ info.price < disc)) :
    resolve_catalog k c sku qty disc =
      { c with
        anyVariantMatched := true
        lineItems := c.lineItems ++
          [.catalogItem info.id qty (round2 info.price)
            (if 0 < discount_amount info.price disc
             then some (discount_amount info.price disc) else none)] } := by
  unfold resolve_catalog
  rw [h]
  simp only [if_neg hp]

theorem process_row_blank (k : String → Option VariantInfo) (qn : Option String)
    (c : Ctx) {r : Row} (h1 : ¬ is_subtotal_row r) (h2 : ¬ is_shipping_row qn r)
    (h3 : ¬ r.disc < 0) (h4 : ¬ str_starts_with (py_upper (py_strip r.sku)) "ST" = true)
    (h6 : py_strip r.sku = "" ∧ r.disc = 0) :
    process_row k qn c r = c := by
  unfold process_row
  rw [if_neg h1, if_neg h2, if_neg h3, if_neg h4, if_pos h6]

/-! ### What one row can do to the accumulator -/

theorem resolve_catalog_fields (k : String → Option VariantInfo) (c : Ctx)
    (sku : String) (qty : ℤ) (disc : ℚ) :
    (resolve_catalog k c sku qty disc).shippingLine = c.shippingLine ∧
    (resolve_catalog k c sku qty disc).orderDiscountTotal = c.orderDiscountTotal ∧
    (resolve_catalog k c sku qty disc).taxExempt = c.taxExempt ∧
    (resolve_catalog k c sku qty disc).anyStSeen = c.anyStSeen := by
  unfold resolve_catalog
  cases hk : k sku with
  | none => exact ⟨rfl, rfl, rfl, rfl⟩
  | some info =>
    dsimp only
    split_ifs <;> exact ⟨rfl, rfl, rfl, rfl⟩

theorem process_row_items_cases (k : String → Option VariantInfo) (qn : Option String)
    (c : Ctx) (r : Row) :
    (process_row k qn c r).lineItems = c.lineItems ∨
    ∃ item, (process_row k qn c r).lineItems = c.lineItems ++ [item] ∧
      item.quantity = r.qty ∧
      (item = .customItem "SALES TAX" (round2 r.disc) r.qty false false ∨
       item = mk_custom_item (py_strip r.sku) r.disc r.qty c.anyVariantMatched ∨
       ∃ info, k (py_strip r.sku) = some info ∧ 0 ≤ r.disc ∧ r.disc ≤ info.price ∧
         item = .catalogItem info.id r.qty (round2 info.price)
           (if 0 < discount_amount info.price r.disc
            then some (discount_amount info.price r.disc) else none)) := by
  by_cases h1 : is_subtotal_row r
  · rw [process_row_subtotal k qn c h1]
    exact Or.inl rfl
  by_cases h2 : is_shipping_row qn r
  · rw [process_row_shipping k qn c h1 h2]
    exact Or.inl rfl
  by_cases h3 : r.disc < 0
  · rw [process_row_neg k qn c ⟨h1, h2, h3⟩]
    exact Or.inl rfl
  by_cases h4 : str_starts_with (py_upper (py_strip r.sku)) "ST" = true
  · by_cases h5 : py_upper (py_strip r.sku) ∈ ignored_st
    · rw [process_row_st_ignored k qn c h3 h4 h5]
      exact Or.inl rfl
    · rw [process_row_st_tax k qn c h3 h4 h5]
      exact Or.inr ⟨_, rfl, rfl, Or.inl rfl⟩
  by_cases h6 : py_strip r.sku = "" ∧ r.disc = 0
  · rw [process_row_blank k qn c h1 h2 h3 h4 h6]
    exact Or.inl rfl
  · rw [process_row_reaches k qn c ⟨h1, h2, h3, by simpa using h4, h6⟩]
    cases hk : k (py_strip r.sku) with
    | none =>
      rw [resolve_catalog_none c r.qty r.disc hk]
      refine Or.inr ⟨_, rfl, ?_, Or.inr (Or.inl rfl)⟩
      simp [mk_custom_item, LineItem.quantity]
    | some info =>
      by_cases hp : info.price ≤ 0 ∨ info.price < r.disc
      · rw [resolve_catalog_custom c r.qty hk hp]
        refine Or.inr ⟨_, rfl, ?_, Or.inr (Or.inl rfl)⟩
        simp [mk_custom_item, LineItem.quantity]
      · rw [resolve_catalog_match c r.qty hk hp]
        push_neg at hp
        exact Or.inr ⟨_, rfl, rfl, Or.inr (Or.inr ⟨info, rfl, not_lt.mp h3, hp.2, rfl⟩)⟩

theorem process_row_items_mono (k : String → Option VariantInfo) (qn : Option String)
    (c : Ctx) (r : Row) {x : LineItem} (hx : x ∈ c.lineItems) :
    x ∈ (process_row k qn c r).lineItems := by
  rcases process_row_items_cases k qn c r with h | ⟨item, h, _, _⟩ <;> rw [h] <;>
    simp [hx]

theorem process_row_taxExempt_cases (k : String → Option VariantInfo) (qn : Option String)
    (c : Ctx) (r : Row) :
    (process_row k qn c r).taxExempt = c.taxExempt ∨
    (process_row k qn c r).taxExempt = true := by
  unfold process_row
  split_ifs
  · exact Or.inl rfl
  · exact Or.inl rfl
  · exact Or.inl rfl
  · exact Or.inl rfl
  · exact Or.inr rfl
  · exact Or.inl rfl
  · exact Or.inl (resolve_catalog_fields k c (py_strip r.sku) r.qty r.disc).2.2.1

theorem process_row_taxExempt_mono (k : String → Option VariantInfo) (qn : Option String)
    (c : Ctx) (r : Row) (h : c.taxExempt = true) :
    (process_row k qn c r).taxExempt = true := by
  rcases process_row_taxExempt_cases k qn c r with h' | h'
  · rw [h', h]
  · exact h'

theorem process_row_anyStSeen_cases (k : String → Option VariantInfo) (qn : Option String)
    (c : Ctx) (r : Row) :
    (process_row k qn c r).anyStSeen = c.anyStSeen ∨
    (process_row k qn c r).anyStSeen = true := by
  unfold process_row
  split_ifs
  · exact Or.inl rfl
  · exact Or.inl rfl
  · exact Or.inl rfl
  · exact Or.inr rfl
  · exact Or.inr rfl
  · exact Or.inl rfl
  · exact Or.inl (resolve_catalog_fields k c (py_strip r.sku) r.qty r.disc).2.2.2

theorem process_row_anyStSeen_mono (k : String → Option VariantInfo) (qn : Option String)
    (c : Ctx) (r : Row) (h : c.anyStSeen = true) :
    (process_row k qn c r).anyStSeen = true := by
  rcases process_row_anyStSeen_cases k qn c r with h' | h'
  · rw [h', h]
  · exact h'

theorem process_row_anyStSeen_of_not_st (k : String → Option VariantInfo)
    (qn : Option String) (c : Ctx) {r : Row}
    (h : ¬ str_starts_with (py_upper (py_strip r.sku)) "ST" = true) :
    (process_row k qn c r).anyStSeen = c.anyStSeen := by
  by_cases h1 : is_subtotal_row r
  · rw [process_row_subtotal k qn c h1]
  by_cases h2 : is_shipping_row qn r
  · rw [process_row_shipping k qn c h1 h2]
  by_cases h3 : r.disc < 0
  · rw [process_row_neg k qn c ⟨h1, h2, h3⟩]
  by_cases h6 : py_strip r.sku = "" ∧ r.disc = 0
  · rw [process_row_blank k qn c h1 h2 h3 h h6]
  · rw [process_row_reaches k qn c ⟨h1, h2, h3, by simpa using h, h6⟩]
    exact (resolve_catalog_fields k c (py_strip r.sku) r.qty r.disc).2.2.2

theorem process_row_st_anyStSeen (k : String → Option VariantInfo) (qn : Option String)
    (c : Ctx) {r : Row} (h3 : ¬ r.disc < 0)
    (h4 : str_starts_with (py_upper (py_strip r.sku)) "ST" = true) :
    (process_row k qn c r).anyStSeen = true := by
  by_cases h5 : py_upper (py_strip r.sku) ∈ ignored_st
  · rw [process_row_st_ignored k qn c h3 h4 h5]
  · rw [process_row_st_tax k qn c h3 h4 h5]

theorem process_row_anyStSeen_unchanged (k : String → Option VariantInfo)
    (qn : Option String) (c : Ctx) {r : Row}
    (h : ¬ (str_starts_with (py_upper (py_strip r.sku)) "ST" = true ∧ ¬ r.disc < 0)) :
    (process_row k qn c r).anyStSeen = c.anyStSeen := by
  by_cases hst : str_starts_with (py_upper (py_strip r.sku)) "ST" = true
  · have hdisc : r.disc < 0 := by
      by_contra hd
      exact h ⟨hst, hd⟩
    rw [process_row_neg k qn c ⟨st_not_subtotal_row hst, st_not_shipping_row hst, hdisc⟩]
  · exact process_row_anyStSeen_of_not_st k qn c hst

theorem process_row_total (k : String → Option VariantInfo) (qn : Option String)
    (c : Ctx) (r : Row) :
    (process_row k qn c r).orderDiscountTotal =
      c.orderDiscountTotal + if is_order_discount_row qn r then |r.disc| else 0 := by
  by_cases hod : is_order_discount_row qn r
  · rw [if_pos hod, process_row_neg k qn c hod]
  · rw [if_neg hod, add_zero]
    by_cases h1 : is_subtotal_row r
    · rw [process_row_subtotal k qn c h1]
    by_cases h2 : is_shipping_row qn r
    · rw [process_row_shipping k qn c h1 h2]
    by_cases h3 : r.disc < 0
    · exact absurd ⟨h1, h2, h3⟩ hod
    by_cases h4 : str_starts_with (py_upper (py_strip r.sku)) "ST" = true
    · by_cases h5 : py_upper (py_strip r.sku) ∈ ignored_st
      · rw [process_row_st_ignored k qn c h3 h4 h5]
      · rw [process_row_st_tax k qn c h3 h4 h5]
    by_cases h6 : py_strip r.sku = "" ∧ r.disc = 0
    · rw [process_row_blank k qn c h1 h2 h3 h4 h6]
    · rw [process_row_reaches k qn c ⟨h1, h2, h3, by simpa using h4, h6⟩]
      exact (resolve_catalog_fields k c (py_strip r.sku) r.qty r.disc).2.1

theorem process_row_anyVariantMatched_iff (k : String → Option VariantInfo)
    (qn : Option String) (c : Ctx) (r : Row) :
    (process_row k qn c r).anyVariantMatched = true ↔
      (c.anyVariantMatched = true ∨ is_normal_catalog_match k qn r) := by
  by_cases h1 : is_subtotal_row r
  · rw [process_row_subtotal k qn c h1]
    simp [is_normal_catalog_match, reaches_catalog, h1]
  by_cases h2 : is_shipping_row qn r
  · rw [process_row_shipping k qn c h1 h2]
    simp [is_normal_catalog_match, reaches_catalog, h2]
  by_cases h3 : r.disc < 0
  · rw [process_row_neg k qn c ⟨h1, h2, h3⟩]
    simp [is_normal_catalog_match, reaches_catalog, h3]
  by_cases h4 : str_starts_with (py_upper (py_strip r.sku)) "ST" = true
  · have hiff : ¬ is_normal_catalog_match k qn r := by
      rintro ⟨⟨_, _, _, hf, _⟩, _⟩
      rw [h4] at hf
      exact absurd hf (by simp)
    by_cases h5 : py_upper (py_strip r.sku) ∈ ignored_st
    · rw [process_row_st_ignored k qn c h3 h4 h5]
      simp [hiff]
    · rw [process_row_st_tax k qn c h3 h4 h5]
      simp [hiff]
  by_cases h6 : py_strip r.sku = "" ∧ r.disc = 0
  · rw [process_row_blank k qn c h1 h2 h3 h4 h6]
    simp [is_normal_catalog_match, reaches_catalog, h6]
  have hreach : reaches_catalog qn r := ⟨h1, h2, h3, by simpa using h4, h6⟩
  rw [process_row_reaches k qn c hreach]
  cases hk : k (py_strip r.sku) with
  | none =>
    rw [resolve_catalog_none c r.qty r.disc hk]
    simp [is_normal_catalog_match, hk]
  | some info =>
    by_cases hp : info.price ≤ 0 ∨ info.price < r.disc
    · have hnm : ¬ is_normal_catalog_match k qn r := by
        rintro ⟨_, info', hk', hp'⟩
        rw [hk] at hk'
        obtain rfl : info = info' := Option.some.inj hk'
        exact hp' hp
      rw [resolve_catalog_custom c r.qty hk hp]
      simp [hnm]
    · rw [resolve_catalog_match c r.qty hk hp]
      constructor
      · intro _
        exact Or.inr ⟨hreach, info, hk, hp⟩
      · intro _
        rfl

/-! ### Folding the row loop -/

theorem foldl_preserve {P : Ctx → Prop} (f : Ctx → Row → Ctx) :
    ∀ (rows : List Row) (c : Ctx),
      (∀ c' r, r ∈ rows → P c' → P (f c' r)) → P c → P (rows.foldl f c) := by
  intro rows
  induction rows with
  | nil =>
    intro c _ hc
    exact hc
  | cons a l ih =>
    intro c hstep hc
    exact ih (f c a) (fun c' r hr => hstep c' r (List.mem_cons_of_mem _ hr))
      (hstep c a (List.mem_cons_self _ _) hc)

theorem foldl_establish {P : Ctx → Prop} (f : Ctx → Row → Ctx) (r0 : Row)
    (hpres : ∀ c r, P c → P (f c r)) (hest : ∀ c, P (f c r0)) :
    ∀ (rows : List Row) (c : Ctx), r0 ∈ rows → P (rows.foldl f c) := by
  intro rows
  induction rows with
  | nil =>
    intro c h
    exact absurd h (List.not_mem_nil r0)
  | cons a l ih =>
    intro c h
    rcases List.mem_cons.mp h with heq | hmem
    · subst heq
      exact foldl_preserve f l (f c r0) (fun c' r _ => hpres c' r) (hest c)
    · exact ih (f c a) hmem

theorem anyStSeen_iff (catalog : String → Option VariantInfo) (qn : Option String)
    (rows : List Row) :
    (process_rows catalog qn rows).anyStSeen = true ↔
      ∃ r ∈ rows, str_starts_with (py_upper (py_strip r.sku)) "ST" = true ∧ ¬ r.disc < 0 := by
  constructor
  · intro h
    by_contra hno
    push_neg at hno
    have hfalse : (process_rows catalog qn rows).anyStSeen = false := by
      refine foldl_preserve (P := fun c => c.anyStSeen = false) (process_row catalog qn)
        rows initCtx ?_ rfl
      intro c r hr hc
      rw [process_row_anyStSeen_unchanged catalog qn c ?_]
      · exact hc
      · rintro ⟨hst, hd⟩
        exact hd (hno r hr hst)
    rw [h] at hfalse
    exact Bool.noConfusion hfalse
  · rintro ⟨r, hmem, hst, hdisc⟩
    refine foldl_establish (P := fun c => c.anyStSeen = true) (process_row catalog qn) r
      ?_ ?_ rows initCtx hmem
    · exact fun c r' hc => process_row_anyStSeen_mono catalog qn c r' hc
    · exact fun c => process_row_st_anyStSeen catalog qn c hdisc hst

/-! ### The tax-info fallback and the final draft body -/

theorem apply_tax_fallback_fields (t : Option ℚ) (c : Ctx) :
    (apply_tax_fallback t c).lineItems = c.lineItems ∧
    (apply_tax_fallback t c).shippingLine = c.shippingLine ∧
    (apply_tax_fallback t c).orderDiscountTotal = c.orderDiscountTotal ∧
    (apply_tax_fallback t c).anyStSeen = c.anyStSeen := by
  unfold apply_tax_fallback
  split_ifs
  · exact ⟨rfl, rfl, rfl, rfl⟩
  · cases t with
    | none => exact ⟨rfl, rfl, rfl, rfl⟩
    | some q =>
      dsimp only
      split_ifs <;> exact ⟨rfl, rfl, rfl, rfl⟩

theorem apply_tax_fallback_of_st (t : Option ℚ) (c : Ctx) (h : c.anyStSeen = true) :
    apply_tax_fallback t c = c := by
  unfold apply_tax_fallback
  rw [if_pos h]

theorem apply_tax_fallback_taxExempt_mono (t : Option ℚ) (c : Ctx)
    (h : c.taxExempt = true) : (apply_tax_fallback t c).taxExempt = true := by
  unfold apply_tax_fallback
  split_ifs with h1
  · exact h
  · cases t with
    | none => exact h
    | some q =>
      dsimp only
      split_ifs
      · rfl
      · exact h

theorem apply_tax_fallback_zero (c : Ctx) (h : c.anyStSeen = false) :
    (apply_tax_fallback (some 0) c).taxExempt = true := by
  unfold apply_tax_fallback
  rw [if_neg (by simp [h])]
  dsimp only
  rw [if_pos rfl]

theorem apply_tax_fallback_nonzero (c : Ctx) {t : ℚ} (h : c.anyStSeen = false)
    (ht : ¬ t = 0) : (apply_tax_fallback (some t) c).taxExempt = c.taxExempt := by
  unfold apply_tax_fallback
  rw [if_neg (by simp [h])]
  dsimp only
  rw [if_neg ht]

theorem create_draft_ok (k : String → Option VariantInfo) (qn : Option String)
    (qt : Option ℚ) {rows : List Row} (hr : rows ≠ [])
    (h : (apply_tax_fallback qt (process_rows k qn rows)).lineItems ≠ []) :
    create_draft_from_method k qn qt rows =
      .ok { lineItems := (apply_tax_fallback qt (process_rows k qn rows)).lineItems
            shippingLine := (apply_tax_fallback qt (process_rows k qn rows)).shippingLine
            appliedDiscount :=
              if 0 < (apply_tax_fallback qt (process_rows k qn rows)).orderDiscountTotal
              then some (round2 (apply_tax_fallback qt (process_rows k qn rows)).orderDiscountTotal)
              else none
            taxExempt := (apply_tax_fallback qt (process_rows k qn rows)).taxExempt } := by
  unfold create_draft_from_method
  rw [if_neg hr]
  exact if_neg (fun hc => h hc.1)

theorem create_draft_error (k : String → Option VariantInfo) (qn : Option String)
    (qt : Option ℚ) {rows : List Row}
    (hitems : (apply_tax_fallback qt (process_rows k qn rows)).lineItems = [])
    (hship : (apply_tax_fallback qt (process_rows k qn rows)).shippingLine = none) :
    ∃ e, create_draft_from_method k qn qt rows = .error e := by
  by_cases hr : rows = []
  · refine ⟨"No items received", ?_⟩
    unfold create_draft_from_method
    rw [if_pos hr]
  · refine ⟨"No valid variants found", ?_⟩
    unfold create_draft_from_method
    rw [if_neg hr]
    exact if_pos ⟨hitems, hship⟩

/-! ### Claim C1: the legacy 1-cent floor -/

/-- Claim C1 (counterexample): at price 50 and tag percent 100, the code's
implied final price is 0, while the spec's formula
`finalPrice = max(price - discountAmount, 0.01)` gives 0.01 — so the
claimed floor `finalPrice = max(price - discountAmount, 0.01)` is false,
and an item whose computed discount exactly equals its price ends at 0. -/
theorem legacy_floor_counterexample :
    legacy_final_price 50 100 = 0 ∧ legacy_spec_final_price 50 100 = 1/100 := by
  constructor <;>
    norm_num [legacy_final_price, legacy_discount_amount, legacy_spec_final_price,
      round2, roundHalfEven]

/-- Claim C1 (amended): in `create_draft_order` the discount amount is
`round(price * pct / 100, 2)` unless that strictly exceeds the price, in
which case it is replaced by `price - 0.01`; hence the final price is 0.01
exactly when the computed discount strictly exceeds the price (e.g. 110%
of 50.00), and `price - round(price * pct / 100, 2)` otherwise — in
particular a discount exactly equal to the price yields final price 0,
not 0.01. -/
theorem legacy_floor_amended :
    (∀ price pct : ℚ, price < round2 (price * pct / 100) →
      legacy_final_price price pct = 1/100) ∧
    (∀ price pct : ℚ, round2 (price * pct / 100) ≤ price →
      legacy_final_price price pct = price - round2 (price * pct / 100)) ∧
    legacy_final_price 50 110 = 1/100 := by
  refine ⟨?_, ?_, ?_⟩
  · intro price pct h
    simp only [legacy_final_price, legacy_discount_amount]
    rw [if_pos (by linarith)]
    ring
  · intro price pct h
    simp only [legacy_final_price, legacy_discount_amount]
    rw [if_neg (by linarith)]
  · norm_num [legacy_final_price, legacy_discount_amount, round2, roundHalfEven]

/-- Witness for the amended C1 theorem at concrete inputs. -/
theorem legacy_floor_amended_witness :
    legacy_final_price 50 110 = 1/100 ∧
    legacy_final_price 100 10 = 100 - round2 (100 * 10 / 100) :=
  ⟨legacy_floor_amended.1 50 110 (by norm_num [round2, roundHalfEven]),
   legacy_floor_amended.2.1 100 10 (by norm_num [round2, roundHalfEven])⟩

/-! ### Claim C2: catalog discount amounts are bounded by the base price -/

/-- Claim C2: for every input row list and every catalog oracle, every
emitted catalog line item of `create_draft_from_method` that carries an
applied-discount block has an amount strictly positive and at most the
item's (serialized) base price, so the implied final price is never
negative. -/
theorem sku_discount_bounds (catalog : String → Option VariantInfo)
    (qn : Option String) (rows : List Row) (vid q : ℤ) (base amt : ℚ)
    (hmem : LineItem.catalogItem vid q base (some amt) ∈
      (process_rows catalog qn rows).lineItems) :
    0 < amt ∧ amt ≤ base := by
  have key := foldl_preserve
    (P := fun c => ∀ vid q : ℤ, ∀ base amt : ℚ,
      LineItem.catalogItem vid q base (some amt) ∈ c.lineItems → 0 < amt ∧ amt ≤ base)
    (process_row catalog qn) rows initCtx ?_ ?_
  · exact key vid q base amt hmem
  · intro c r _ hP vid q base amt hm
    rcases process_row_items_cases catalog qn c r with h | ⟨item, h, hq, hcase⟩
    · rw [h] at hm
      exact hP _ _ _ _ hm
    · rw [h] at hm
      rcases List.mem_append.mp hm with hold | hnew
      · exact hP _ _ _ _ hold
      · have hthis : LineItem.catalogItem vid q base (some amt) = item :=
          List.mem_singleton.mp hnew
        rcases hcase with hi | hi | ⟨info, hk, hd0, hdle, hi⟩
        · rw [hi] at hthis
          simp at hthis
        · rw [hi, mk_custom_item] at hthis
          simp at hthis
        · rw [hi] at hthis
          by_cases hda : 0 < discount_amount info.price r.disc
          · rw [if_pos hda] at hthis
            simp only [LineItem.catalogItem.injEq, Option.some.injEq] at hthis
            obtain ⟨-, -, hbase, hamt⟩ := hthis
            subst hbase
            subst hamt
            refine ⟨hda, ?_⟩
            unfold discount_amount at *
            split_ifs at * with hneg
            · exact absurd hda (by simp)
            · exact round2_mono (by linarith)
          · rw [if_neg hda] at hthis
            simp at hthis
  · intro vid q base amt hm
    simp [initCtx] at hm

/-- Witness for C2: a concrete catalog and row producing a discounted
catalog item, whose discount amount satisfies the bounds. -/
theorem sku_discount_bounds_witness : 0 < (10 : ℚ) ∧ (10 : ℚ) ≤ 100 := by
  apply sku_discount_bounds (fun s => if s = "A" then some ⟨7, 100⟩ else none) none
    [⟨"A", 1, 90⟩] 7 1 100 10
  have hreach : reaches_catalog none (⟨"A", 1, 90⟩ : Row) := by decide
  have hk : (fun s => if s = "A" then some (⟨7, 100⟩ : VariantInfo) else none)
      (py_strip (⟨"A", 1, 90⟩ : Row).sku) = some ⟨7, 100⟩ := by decide
  have hp : ¬ ((⟨7, 100⟩ : VariantInfo).price ≤ 0 ∨
      (⟨7, 100⟩ : VariantInfo).price < (⟨"A", 1, 90⟩ : Row).disc) := by decide
  have hstep : process_rows (fun s => if s = "A" then some ⟨7, 100⟩ else none) none
      [⟨"A", 1, 90⟩] = resolve_catalog (fun s => if s = "A" then some ⟨7, 100⟩ else none)
        initCtx (py_strip "A") 1 90 :=
    process_row_reaches (fun s => if s = "A" then some ⟨7, 100⟩ else none) none initCtx hreach
  rw [hstep, resolve_catalog_match initCtx 1 hk hp]
  have e1 : round2 ((⟨7, 100⟩ : VariantInfo).price) = 100 := by
    norm_num [round2, roundHalfEven]
  have e2 : discount_amount (⟨7, 100⟩ : VariantInfo).price (⟨"A", 1, 90⟩ : Row).disc = 10 := by
    norm_num [discount_amount, round2, roundHalfEven]
  rw [e1, e2, if_pos (by norm_num)]
  simp

/-! ### Claim C3: ST-prefixed rows and the tax-exempt flag -/

/-- Claim C3 (counterexample): the row ⟨"STXX", qty 1, price -5⟩ starts
with "ST" and is not an ignored state code, yet — because the
negative-price rule runs first — the order ends with `taxExempt = false`,
no "SALES TAX" item, and the 5.00 fed into the order-level discount
instead.  The claim's "regardless of the other fields of the row" is
therefore false. -/
theorem st_code_tax_counterexample :
    create_draft_from_method (fun _ => none) none none
        [⟨"STXX", 1, -5⟩, ⟨"X", 1, 10⟩] =
      .ok { lineItems := [.customItem "X" 10 1 true true]
            shippingLine := none
            appliedDiscount := some 5
            taxExempt := false } := by
  have er : round2 10 = 10 := by norm_num [round2, roundHalfEven]
  have h1 : process_row (fun _ => none) none initCtx ⟨"STXX", 1, -5⟩ =
      { initCtx with orderDiscountTotal := 5 } := by
    rw [process_row_neg (fun _ => none) none initCtx (by decide)]
    norm_num [initCtx]
  have h2 : process_row (fun _ => none) none
      { initCtx with orderDiscountTotal := 5 } ⟨"X", 1, 10⟩ =
      { initCtx with
        orderDiscountTotal := 5
        lineItems := [.customItem "X" 10 1 true true] } := by
    rw [process_row_reaches (fun _ => none) none _ (by decide),
      resolve_catalog_none _ 1 10 rfl]
    dsimp only
    rw [show py_strip "X" = "X" from by decide]
    simp [mk_custom_item, er, initCtx]
  have hrows : process_rows (fun _ => none) none [⟨"STXX", 1, -5⟩, ⟨"X", 1, 10⟩] =
      { initCtx with
        orderDiscountTotal := 5
        lineItems := [.customItem "X" 10 1 true true] } := by
    simp only [process_rows, List.foldl_cons, List.foldl_nil]
    rw [h1, h2]
  unfold create_draft_from_method
  rw [if_neg (by simp), hrows]
  rw [show apply_tax_fallback none
      { initCtx with
        orderDiscountTotal := 5
        lineItems := [.customItem "X" 10 1 true true] } =
      { initCtx with
        orderDiscountTotal := 5
        lineItems := [.customItem "X" 10 1 true true] } from rfl]
  rw [if_neg (by simp [initCtx])]
  have e5 : round2 5 = 5 := by norm_num [round2, roundHalfEven]
  simp [initCtx, e5]

/-- Claim C3 (amended): for any row with non-negative discounted price
whose stripped upper-cased SKU starts with "ST" and is not in the ignored
set, `create_draft_from_method` succeeds, the resulting order has
`taxExempt = true`, and the row emits the non-taxable "SALES TAX" custom
item at the row's (serialized) discounted price.  The restriction to
non-negative prices is forced by the counterexample: rule 3 (order-level
discount) runs before the ST rule. -/
theorem st_code_tax_amended (catalog : String → Option VariantInfo)
    (qn : Option String) (qt : Option ℚ) (rows : List Row) (r : Row)
    (hmem : r ∈ rows) (hdisc : ¬ r.disc < 0)
    (hst : str_starts_with (py_upper (py_strip r.sku)) "ST" = true)
    (hnig : py_upper (py_strip r.sku) ∉ ignored_st) :
    ∃ db, create_draft_from_method catalog qn qt rows = .ok db ∧
      db.taxExempt = true ∧
      LineItem.customItem "SALES TAX" (round2 r.disc) r.qty false false ∈ db.lineItems := by
  have hP : (process_rows catalog qn rows).taxExempt = true ∧
      LineItem.customItem "SALES TAX" (round2 r.disc) r.qty false false ∈
        (process_rows catalog qn rows).lineItems := by
    refine foldl_establish
      (P := fun c => c.taxExempt = true ∧
        LineItem.customItem "SALES TAX" (round2 r.disc) r.qty false false ∈ c.lineItems)
      (process_row catalog qn) r ?_ ?_ rows initCtx hmem
    · intro c r' hc
      exact ⟨process_row_taxExempt_mono catalog qn c r' hc.1,
        process_row_items_mono catalog qn c r' hc.2⟩
    · intro c
      rw [process_row_st_tax catalog qn c hdisc hst hnig]
      exact ⟨rfl, by simp⟩
  have hT := apply_tax_fallback_taxExempt_mono qt _ hP.1
  have hI : LineItem.customItem "SALES TAX" (round2 r.disc) r.qty false false ∈
      (apply_tax_fallback qt (process_rows catalog qn rows)).lineItems := by
    rw [(apply_tax_fallback_fields qt _).1]
    exact hP.2
  have hr : rows ≠ [] := List.ne_nil_of_mem hmem
  have hne : (apply_tax_fallback qt (process_rows catalog qn rows)).lineItems ≠ [] :=
    List.ne_nil_of_mem hI
  exact ⟨_, create_draft_ok catalog qn qt hr hne, hT, hI⟩

/-- Witness for the amended C3 theorem at a concrete input. -/
theorem st_code_tax_amended_witness :
    ∃ db, create_draft_from_method (fun _ => none) none none [⟨"STXX", 1, 15⟩] = .ok db ∧
      db.taxExempt = true ∧
      LineItem.customItem "SALES TAX" (round2 15) 1 false false ∈ db.lineItems :=
  st_code_tax_amended (fun _ => none) none none [⟨"STXX", 1, 15⟩] ⟨"STXX", 1, 15⟩
    (by decide) (by decide) (by decide) (by decide)

/-! ### Claim C4: the order-level discount accumulator -/

/-- Claim C4 (counterexample): a lone negative-priced SUBTOTAL row is
consumed by the subtotal rule before the negative-price check, so it is a
row with `disc < 0` (the claim's filter keeps it, with `|disc| = 5`) yet
the resulting `orderDiscountTotal` is 0, not 5. -/
theorem order_discount_sum_counterexample :
    (process_rows (fun _ => none) none [⟨"SUBTOTAL", 1, -5⟩]).orderDiscountTotal = 0 ∧
    (([⟨"SUBTOTAL", 1, -5⟩] : List Row).filter fun r => decide (r.disc < 0)) =
      [⟨"SUBTOTAL", 1, -5⟩] ∧
    |(-5 : ℚ)| = 5 := by
  exact ⟨rfl, by decide, by decide⟩

/-- Claim C4 (amended): `orderDiscountTotal` equals the sum of `|disc|`
over the rows with negative discounted price that are not subtotal markers
and not shipping (S&H) rows — rules 1 and 2 consume a row before the
negative-price check — and each such row changes nothing but the
accumulator (no line item is emitted for it). -/
theorem order_discount_sum_amended :
    (∀ (catalog : String → Option VariantInfo) (qn : Option String) (rows : List Row),
      (process_rows catalog qn rows).orderDiscountTotal =
        ((rows.filter fun r => decide (is_order_discount_row qn r)).map
          fun r => |r.disc|).sum) ∧
    (∀ (catalog : String → Option VariantInfo) (qn : Option String) (c : Ctx) (r : Row),
      is_order_discount_row qn r →
      process_row catalog qn c r =
        { c with orderDiscountTotal := c.orderDiscountTotal + |r.disc| }) := by
  constructor
  · intro catalog qn rows
    suffices h : ∀ (l : List Row) (c : Ctx),
        (l.foldl (process_row catalog qn) c).orderDiscountTotal =
          c.orderDiscountTotal +
            ((l.filter fun r => decide (is_order_discount_row qn r)).map
              fun r => |r.disc|).sum by
      have h2 := h rows initCtx
      simpa [process_rows, initCtx] using h2
    intro l
    induction l with
    | nil =>
      intro c
      simp
    | cons a t ih =>
      intro c
      rw [List.foldl_cons, ih, process_row_total]
      by_cases ha : is_order_discount_row qn a
      · rw [if_pos ha, List.filter_cons, if_pos (decide_eq_true ha)]
        simp only [List.map_cons, List.sum_cons]
        ring
      · rw [if_neg ha, List.filter_cons, if_neg (by simp [decide_eq_false ha]), add_zero]
  · intro catalog qn c r h
    exact process_row_neg catalog qn c h

/-- Witness for the amended C4 theorem at a concrete input. -/
theorem order_discount_sum_amended_witness :
    process_row (fun _ => none) none initCtx ⟨"A", 1, -3⟩ =
      { initCtx with orderDiscountTotal := initCtx.orderDiscountTotal + |(-3 : ℚ)| } :=
  order_discount_sum_amended.2 (fun _ => none) none initCtx ⟨"A", 1, -3⟩ (by decide)

/-! ### Claim C5: the contentless-order failure -/

/-- Claim C5: whenever processing ends with no line items and no shipping
line, `create_draft_from_method` fails with an error rather than building
a draft; in particular a lone ignored-state-code row ⟨"STCA", 15.00⟩ is
discarded with `taxExempt` still false and the request fails, and a lone
blank row ⟨"", 0⟩ likewise fails. -/
theorem empty_order_fails :
    (∀ (catalog : String → Option VariantInfo) (qn : Option String) (qt : Option ℚ)
        (rows : List Row),
      (apply_tax_fallback qt (process_rows catalog qn rows)).lineItems = [] →
      (apply_tax_fallback qt (process_rows catalog qn rows)).shippingLine = none →
      ∃ e, create_draft_from_method catalog qn qt rows = .error e) ∧
    create_draft_from_method (fun _ => none) none none [⟨"STCA", 1, 15⟩] =
      .error "No valid variants found" ∧
    (apply_tax_fallback none
      (process_rows (fun _ => none) none [⟨"STCA", 1, 15⟩])).taxExempt = false ∧
    create_draft_from_method (fun _ => none) none none [⟨"", 1, 0⟩] =
      .error "No valid variants found" := by
  refine ⟨?_, rfl, rfl, rfl⟩
  intro catalog qn qt rows h1 h2
  exact create_draft_error catalog qn qt h1 h2

/-- Witness for C5 at a concrete input: the general empty-order hypothesis
holds for the lone STCA row, and the theorem yields the failure. -/
theorem empty_order_fails_witness :
    ∃ e, create_draft_from_method (fun _ => none) none none [⟨"STCA", 1, 15⟩] =
      .error e :=
  empty_order_fails.1 (fun _ => none) none none [⟨"STCA", 1, 15⟩] rfl rfl

/-! ### Claim C6: the tax-info fallback -/

/-- Claim C6 (counterexample): with input [⟨"STXX", qty 1, disc -5⟩] an
ST-prefixed SKU occurs in the input, yet the row is consumed by the
order-level-discount rule before the ST branch, `anyStSeen` stays false,
and a tax-info of 0 makes the fallback fire: `taxExempt` goes from false
to true — refuting the claim's "if any ST-prefixed SKU was seen … the
tax-info fallback does not fire at all". -/
theorem tax_fallback_counterexample :
    (process_rows (fun _ => none) none [⟨"STXX", 1, -5⟩]).anyStSeen = false ∧
    (process_rows (fun _ => none) none [⟨"STXX", 1, -5⟩]).taxExempt = false ∧
    (apply_tax_fallback (some 0)
      (process_rows (fun _ => none) none [⟨"STXX", 1, -5⟩])).taxExempt = true :=
  ⟨rfl, rfl, rfl⟩

/-- Claim C6 (amended): after all rows are processed, `anyStSeen` is true
exactly when some input row has an ST-prefixed SKU and a non-negative
discounted price (a negative-priced ST row is consumed by the order-level
discount rule and does not count as seen); when the flag is false, a
tax-info of 0 sets `taxExempt = true` and any positive tax-info leaves it
unchanged; when the flag is true — ignored state codes included — the
fallback does not fire at all.  The two flag cases are exhaustive. -/
theorem tax_fallback_amended :
    (∀ (catalog : String → Option VariantInfo) (qn : Option String) (rows : List Row),
      (process_rows catalog qn rows).anyStSeen = true ↔
        ∃ r ∈ rows, str_starts_with (py_upper (py_strip r.sku)) "ST" = true ∧
          ¬ r.disc < 0) ∧
    (∀ (catalog : String → Option VariantInfo) (qn : Option String) (rows : List Row),
      (process_rows catalog qn rows).anyStSeen = false →
      (apply_tax_fallback (some 0) (process_rows catalog qn rows)).taxExempt = true ∧
      ∀ t : ℚ, 0 < t →
        (apply_tax_fallback (some t) (process_rows catalog qn rows)).taxExempt =
          (process_rows catalog qn rows).taxExempt) ∧
    (∀ (catalog : String → Option VariantInfo) (qn : Option String) (rows : List Row),
      (process_rows catalog qn rows).anyStSeen = true →
      ∀ qt : Option ℚ,
        apply_tax_fallback qt (process_rows catalog qn rows) =
          process_rows catalog qn rows) := by
  refine ⟨anyStSeen_iff, ?_, ?_⟩
  · intro catalog qn rows hfalse
    refine ⟨apply_tax_fallback_zero _ hfalse, ?_⟩
    intro t ht
    exact apply_tax_fallback_nonzero _ hfalse (ne_of_gt ht)
  · intro catalog qn rows htrue qt
    exact apply_tax_fallback_of_st qt _ htrue

/-- Witness for the amended C6 theorem at concrete inputs: the discarded
negative-priced ST row leaves the flag false and the fallback fires; the
ignored STCA row sets the flag and the fallback is inert. -/
theorem tax_fallback_amended_witness :
    (apply_tax_fallback (some 0)
      (process_rows (fun _ => none) none [⟨"STXX", 1, -5⟩])).taxExempt = true ∧
    apply_tax_fallback (some 0) (process_rows (fun _ => none) none [⟨"STCA", 1, 15⟩]) =
      process_rows (fun _ => none) none [⟨"STCA", 1, 15⟩] :=
by
  have h1 : (process_rows (fun _ => none) none [⟨"STXX", 1, -5⟩]).anyStSeen = false := by
    decide
  have h2 : (process_rows (fun _ => none) none [⟨"STCA", 1, 15⟩]).anyStSeen = true := by
    decide
  exact ⟨(tax_fallback_amended.2.1 (fun _ => none) none [⟨"STXX", 1, -5⟩] h1).1,
    tax_fallback_amended.2.2 (fun _ => none) none [⟨"STCA", 1, 15⟩] h2 (some 0)⟩

/-! ### Claim C7: catalog match at an invalid price falls back to a custom item -/

/-- Claim C7: a row reaching catalog resolution whose variant exists but has
base price ≤ 0, or whose requested price strictly exceeds the base price,
is emitted as a custom item at the requested (serialized) price — not as a
catalog item — leaving `anyVariantMatched` unchanged and carrying the
`requires_shipping` flag exactly when no variant has matched yet. -/
theorem price_exceeds_base_custom (catalog : String → Option VariantInfo)
    (qn : Option String) (c : Ctx) (r : Row) (info : VariantInfo)
    (hreach : reaches_catalog qn r)
    (hk : catalog (py_strip r.sku) = some info)
    (hp : info.price ≤ 0 ∨ info.price < r.disc) :
    process_row catalog qn c r =
      { c with lineItems := c.lineItems ++
          [.customItem (if py_strip r.sku = "" then "Custom Item" else py_strip r.sku)
            (round2 r.disc) r.qty true (!c.anyVariantMatched)] } := by
  rw [process_row_reaches catalog qn c hreach, resolve_catalog_custom c r.qty hk hp]
  rfl

/-- Witness for C7 at a concrete input (catalog base price 0). -/
theorem price_exceeds_base_custom_witness :
    process_row (fun s => if s = "A" then some ⟨7, 0⟩ else none) none initCtx ⟨"A", 2, 5⟩ =
      { initCtx with lineItems := initCtx.lineItems ++
          [.customItem (if py_strip "A" = "" then "Custom Item" else py_strip "A")
            (round2 5) 2 true (!initCtx.anyVariantMatched)] } :=
  price_exceeds_base_custom (fun s => if s = "A" then some ⟨7, 0⟩ else none) none initCtx
    ⟨"A", 2, 5⟩ ⟨7, 0⟩ (by decide) (by decide) (by decide)

/-! ### Claim C8: zero discounts are omitted -/

/-- Claim C8: a catalog-matched row in the normal branch whose computed
discount `round(basePrice - discountedPrice, 2)` is ≤ 0 — in particular
`discountedPrice = basePrice` — yields a catalog item with no
applied-discount block at all (the option is `none`, not `some 0`). -/
theorem zero_discount_omitted (catalog : String → Option VariantInfo)
    (qn : Option String) (c : Ctx) (r : Row) (info : VariantInfo)
    (hreach : reaches_catalog qn r)
    (hk : catalog (py_strip r.sku) = some info)
    (hp : ¬ (info.price ≤ 0 ∨ info.price < r.disc))
    (hz : round2 (info.price - r.disc) ≤ 0) :
    process_row catalog qn c r =
      { c with
        anyVariantMatched := true
        lineItems := c.lineItems ++
          [.catalogItem info.id r.qty (round2 info.price) none] } := by
  rw [process_row_reaches catalog qn c hreach, resolve_catalog_match c r.qty hk hp]
  have hda : ¬ 0 < discount_amount info.price r.disc := by
    unfold discount_amount
    split_ifs with h
    · simp
    · exact not_lt.mpr hz
  rw [if_neg hda]

/-- Witness for C8 at a concrete input: `discountedPrice = basePrice = 100`
yields a catalog item with no discount block. -/
theorem zero_discount_omitted_witness :
    process_row (fun s => if s = "A" then some ⟨3, 100⟩ else none) none initCtx ⟨"A", 1, 100⟩ =
      { initCtx with
        anyVariantMatched := true
        lineItems := initCtx.lineItems ++ [.catalogItem 3 1 (round2 100) none] } :=
  zero_discount_omitted (fun s => if s = "A" then some ⟨3, 100⟩ else none) none initCtx
    ⟨"A", 1, 100⟩ ⟨3, 100⟩ (by decide) (by decide) (by decide)
    (by norm_num [round2, roundHalfEven])

/-! ### Claim C9: quantities of emitted items -/

/-- Claim C9 (counterexample): the input quantity is read without clamping,
so the row ⟨"STXX", qty 0, price 5⟩ produces a draft whose only line item
has quantity 0 — the claimed unconditional invariant `quantity ≥ 1` fails. -/
theorem quantity_invariant_counterexample :
    create_draft_from_method (fun _ => none) none none [⟨"STXX", 0, 5⟩] =
      .ok { lineItems := [.customItem "SALES TAX" 5 0 false false]
            shippingLine := none
            appliedDiscount := none
            taxExempt := true } := by
  have e5 : round2 5 = 5 := by norm_num [round2, roundHalfEven]
  have h1 : process_row (fun _ => none) none initCtx ⟨"STXX", 0, 5⟩ =
      { initCtx with
        anyStSeen := true
        taxExempt := true
        lineItems := [.customItem "SALES TAX" 5 0 false false] } := by
    rw [process_row_st_tax (fun _ => none) none initCtx (by decide) (by decide) (by decide)]
    simp [initCtx, e5]
  have hrows : process_rows (fun _ => none) none [⟨"STXX", 0, 5⟩] =
      { initCtx with
        anyStSeen := true
        taxExempt := true
        lineItems := [.customItem "SALES TAX" 5 0 false false] } := h1
  unfold create_draft_from_method
  rw [if_neg (by simp), hrows, apply_tax_fallback_of_st none _ rfl,
    if_neg (by simp [initCtx])]
  simp [initCtx]

/-- Claim C9 (amended): every emitted line item's quantity is the quantity
of some input row (default 1 is applied at parse time); hence if every
input row's quantity is ≥ 1 then every emitted item has quantity ≥ 1.  The
unconditional claim fails because the code does not clamp `qty`. -/
theorem quantity_invariant_amended (catalog : String → Option VariantInfo)
    (qn : Option String) (rows : List Row) (hq : ∀ r ∈ rows, 1 ≤ r.qty) :
    ∀ item ∈ (process_rows catalog qn rows).lineItems, 1 ≤ item.quantity := by
  refine foldl_preserve (P := fun c => ∀ item ∈ c.lineItems, 1 ≤ item.quantity)
    (process_row catalog qn) rows initCtx ?_ ?_
  · intro c r hr hP item hitem
    rcases process_row_items_cases catalog qn c r with h | ⟨item', h, hqty, -⟩
    · rw [h] at hitem
      exact hP item hitem
    · rw [h] at hitem
      rcases List.mem_append.mp hitem with hold | hnew
      · exact hP item hold
      · rw [List.mem_singleton.mp hnew, hqty]
        exact hq r hr
  · intro item h
    simp [initCtx] at h

/-- Witness for the amended C9 theorem at a concrete input. -/
theorem quantity_invariant_amended_witness :
    1 ≤ (LineItem.customItem "SALES TAX" (5 : ℚ) 2 false false).quantity := by
  have e5 : round2 5 = 5 := by norm_num [round2, roundHalfEven]
  have h1 : process_row (fun _ => none) none initCtx ⟨"STXX", 2, 5⟩ =
      { initCtx with
        anyStSeen := true
        taxExempt := true
        lineItems := [.customItem "SALES TAX" 5 2 false false] } := by
    rw [process_row_st_tax (fun _ => none) none initCtx (by decide) (by decide) (by decide)]
    simp [initCtx, e5]
  have hrows : process_rows (fun _ => none) none [⟨"STXX", 2, 5⟩] =
      { initCtx with
        anyStSeen := true
        taxExempt := true
        lineItems := [.customItem "SALES TAX" 5 2 false false] } := h1
  have hmem : LineItem.customItem "SALES TAX" (5 : ℚ) 2 false false ∈
      (process_rows (fun _ => none) none [⟨"STXX", 2, 5⟩]).lineItems := by
    rw [hrows]
    simp
  exact quantity_invariant_amended (fun _ => none) none [⟨"STXX", 2, 5⟩] (by decide) _ hmem

/-! ### Claim C10: the requires-shipping heuristic -/

/-- Claim C10: `anyVariantMatched` is true after a row exactly when it was
already true or the row is a normal catalog match (it is set solely there
and never reverts), and every custom item appended by the catalog-miss or
price-exceeds-base branches (`taxable` absent, i.e. `true` here — unlike
the "SALES TAX" item) carries `requires_shipping` exactly when no catalog
match had been seen yet: all custom items emitted before the first match
get the flag, all later ones omit it. -/
theorem requires_shipping_guard :
    (∀ (catalog : String → Option VariantInfo) (qn : Option String) (c : Ctx) (r : Row),
      (process_row catalog qn c r).anyVariantMatched = true ↔
        (c.anyVariantMatched = true ∨ is_normal_catalog_match catalog qn r)) ∧
    (∀ (catalog : String → Option VariantInfo) (qn : Option String) (c : Ctx) (r : Row)
        (title : String) (p : ℚ) (q : ℤ) (tx rs : Bool),
      (process_row catalog qn c r).lineItems = c.lineItems ++ [.customItem title p q tx rs] →
      tx = true → rs = !c.anyVariantMatched) := by
  refine ⟨process_row_anyVariantMatched_iff, ?_⟩
  intro catalog qn c r title p q tx rs happ htx
  rcases process_row_items_cases catalog qn c r with h | ⟨item, h, -, hcase⟩
  · rw [h] at happ
    have hlen := congrArg List.length happ
    simp at hlen
  · rw [h] at happ
    have hitem : item = LineItem.customItem title p q tx rs := by
      have h2 := List.append_inj_right happ rfl
      exact (List.cons_eq_cons.mp h2).1
    rcases hcase with hi | hi | ⟨info, hk, -, -, hi⟩
    · rw [hi] at hitem
      simp only [LineItem.customItem.injEq] at hitem
      rw [htx] at hitem
      exact absurd hitem.2.2.2.1 Bool.false_ne_true
    · rw [hi, mk_custom_item] at hitem
      simp only [LineItem.customItem.injEq] at hitem
      exact hitem.2.2.2.2.symm
    · rw [hi] at hitem
      exact absurd hitem (by simp)

/-- Witness for C10 at a concrete input: the first unresolved custom item
carries the flag. -/
theorem requires_shipping_guard_witness :
    (true : Bool) = !initCtx.anyVariantMatched := by
  apply requires_shipping_guard.2 (fun _ => none) none initCtx ⟨"B", 1, 5⟩ "B"
    (round2 5) 1 true true
  · have h1 : process_row (fun _ => none) none initCtx ⟨"B", 1, 5⟩ =
        { initCtx with lineItems := initCtx.lineItems ++
            [mk_custom_item (py_strip (⟨"B", 1, 5⟩ : Row).sku) 5 1 initCtx.anyVariantMatched] } := by
      rw [process_row_reaches (fun _ => none) none initCtx (by decide),
        resolve_catalog_none initCtx 1 5 rfl]
    rw [h1]
    simp only [mk_custom_item]
    rw [show py_strip (⟨"B", 1, 5⟩ : Row).sku = "B" from by decide]
    simp [initCtx]
  · rfl
